import Mathlib

/-!
Verification development for the EchoPath streaming story pipeline.

The TypeScript sources are embedded shallowly:
* `services/geminiService.ts` — `calculateTotalSegments`, `generateStoryOutline`
  (the network call is an oracle argument: `none` models a failed / non-array /
  empty generation result, `some l` a parsed JSON array `l`).
* `services/audioUtils.ts` — `pcmToWav`, `concatenateAudioBuffers`,
  with `AudioBuffer` modelled as a structure of channel count, frame length,
  sample rate and per-channel sample lists.
* `components/StoryPlayer.tsx` — the playback engine: `playSegment`,
  `handleSegmentEnd`, `togglePlayback` as transitions on a `PlayerState`
  (UI-only state such as auto-scroll, download and settings flags is not part
  of the playback model; the hardware clock is an explicit rational argument).
* `App.tsx` — the generation scheduler: the trigger effect
  (`generationTrigger`), `generateNextSegment` (its two awaited service calls
  are oracle arguments, `none` modelling timeout or failure) and the
  `setStory` committers (`commitSegment`, `handleVoiceChangeCommit`), each
  taking the store contents at commit time as an explicit argument.

Machine arithmetic: JS numbers used for clock times, speeds and durations are
modelled as `ℚ`; byte-level WAV encoding works on `Nat` bytes with explicit
`% 256` decomposition and two's-complement `Int.emod 65536` for PCM16 samples.
-/

/-- `AudioBuffer` of the Web Audio API, as the code observes it:
channel count, frame length, sample rate, per-channel float samples. -/
structure Audio where
  numberOfChannels : Nat
  length : Nat
  sampleRate : Nat
  channelData : List (List ℚ)
  deriving DecidableEq, Repr

/-- `StorySegment` of `types.ts`: 1-based index, narrative text, audio
(`null` modelled as `none`). -/
structure StorySegment where
  index : Nat
  text : String
  audioBuffer : Option Audio
  deriving DecidableEq, Repr

/-- `AudioStory` of `types.ts`. -/
structure AudioStory where
  totalSegmentsEstimate : Nat
  outline : List String
  segments : List StorySegment
  deriving DecidableEq, Repr

/-- `AppState` of `types.ts` (a numeric enum; comparisons use `toNat`). -/
inductive AppState where
  | PLANNING
  | CALCULATING_ROUTE
  | ROUTE_CONFIRMED
  | GENERATING_INITIAL_SEGMENT
  | READY_TO_PLAY
  | PLAYING
  deriving DecidableEq, Repr

/-- Numeric value of the `AppState` enum member, as TypeScript assigns it. -/
def AppState.toNat : AppState → Nat
  | .PLANNING => 0
  | .CALCULATING_ROUTE => 1
  | .ROUTE_CONFIRMED => 2
  | .GENERATING_INITIAL_SEGMENT => 3
  | .READY_TO_PLAY => 4
  | .PLAYING => 5

/-- The slice of `RouteDetails` the scheduler and segment computation use. -/
structure RouteDetails where
  durationSeconds : ℚ
  deriving DecidableEq, Repr

/-! ## services/geminiService.ts -/

/-- `TARGET_SEGMENT_DURATION_SEC` (geminiService.ts line 16). -/
def TARGET_SEGMENT_DURATION_SEC : ℚ := 60

/-- `calculateTotalSegments` (geminiService.ts lines 21-23):
`Math.max(1, Math.ceil(durationSeconds / TARGET_SEGMENT_DURATION_SEC))`. -/
def calculateTotalSegments (durationSeconds : ℚ) : ℤ :=
  max 1 ⌈durationSeconds / TARGET_SEGMENT_DURATION_SEC⌉

/-- Filler pushed while the parsed outline is shorter than requested
(geminiService.ts line 81). -/
def outlinePadFiller : String := "Продолжение захватывающего путешествия."

/-- Filler returned when outline generation fails outright
(geminiService.ts line 88). -/
def outlineErrorFiller : String := "Продолжение иммерсивного повествования о пути."

/-- `generateStoryOutline` (geminiService.ts lines 46-90), with the model
call and JSON parse as an oracle: `none` models no text, a parse error or a
non-array value (all thrown and caught), `some l` the parsed array.  An empty
array also throws into the catch.  Otherwise the array is padded with
`outlinePadFiller` up to `totalSegments` and sliced to `totalSegments`. -/
def generateStoryOutline (genResult : Option (List String))
    (totalSegments : Nat) : List String :=
  match genResult with
  | none => List.replicate totalSegments outlineErrorFiller
  | some outline =>
    if outline.isEmpty then
      List.replicate totalSegments outlineErrorFiller
    else
      (outline ++ List.replicate (totalSegments - outline.length) outlinePadFiller).take
        totalSegments

/-! ## services/audioUtils.ts -/

/-- `writeString` (audioUtils.ts lines 23-27): the ASCII codes of a tag. -/
def writeStringBytes (s : String) : List Nat :=
  s.toList.map Char.toNat

/-- Two bytes of `DataView.setUint16(_, n, true)` (little endian). -/
def u16le (n : Nat) : List Nat :=
  [n % 256, n / 256 % 256]

/-- Four bytes of `DataView.setUint32(_, n, true)` (little endian). -/
def u32le (n : Nat) : List Nat :=
  [n % 256, n / 256 % 256, n / 65536 % 256, n / 16777216 % 256]

/-- Two bytes of `DataView.setInt16(_, s, true)`: the low 16 bits of the
integer, two's complement, little endian. -/
def i16le (s : ℤ) : List Nat :=
  u16le (s.emod 65536).toNat

/-- The 44 header bytes `pcmToWav` writes before the sample data
(audioUtils.ts lines 47-64), for `numSamples` mono PCM16 samples. -/
def wavHeaderBytes (numSamples : Nat) (sampleRate : Nat) : List Nat :=
  let numChannels := 1
  let bytesPerSample := 2
  let blockAlign := numChannels * bytesPerSample
  let byteRate := sampleRate * blockAlign
  let dataSize := numSamples * blockAlign
  let wavHeaderSize := 44
  let totalSize := wavHeaderSize + dataSize
  writeStringBytes "RIFF" ++ u32le (totalSize - 8) ++
  writeStringBytes "WAVE" ++
  writeStringBytes "fmt " ++ u32le 16 ++ u16le 1 ++ u16le numChannels ++
  u32le sampleRate ++ u32le byteRate ++ u16le blockAlign ++ u16le 16 ++
  writeStringBytes "data" ++ u32le dataSize

/-- `pcmToWav` (audioUtils.ts lines 33-73) as the byte stream of the produced
`Blob`: the 44 header bytes followed by the PCM data written little-endian
at offset 44 (lines 67-70).  The input `ArrayBuffer` is modelled by its
`Int16Array` view, a list of PCM16 samples. -/
def pcmToWav (pcm16 : List ℤ) (sampleRate : Nat) : List Nat :=
  wavHeaderBytes pcm16.length sampleRate ++ pcm16.flatMap i16le

/-- Byte of a stream at an offset (0 past the end). -/
def byteAt (l : List Nat) (i : Nat) : Nat :=
  l.getD i 0

/-- Read back an unsigned little-endian 16-bit field. -/
def readU16 (l : List Nat) (off : Nat) : Nat :=
  byteAt l off + 256 * byteAt l (off + 1)

/-- Read back an unsigned little-endian 32-bit field. -/
def readU32 (l : List Nat) (off : Nat) : Nat :=
  byteAt l off + 256 * byteAt l (off + 1) +
    65536 * byteAt l (off + 2) + 16777216 * byteAt l (off + 3)

/-- Read back a signed little-endian 16-bit sample (two's complement). -/
def readI16 (l : List Nat) (off : Nat) : ℤ :=
  let v := readU16 l off
  if v < 32768 then (v : ℤ) else (v : ℤ) - 65536

/-- `AudioContext.createBuffer(ch, len, rate)`: zero-filled channels. -/
def createBuffer (numChannels length sampleRate : Nat) : Audio :=
  { numberOfChannels := numChannels
    length := length
    sampleRate := sampleRate
    channelData := List.replicate numChannels (List.replicate length 0) }

/-- `Float32Array.set(src, offset)` on a channel: overwrite `src.length`
samples of `dst` starting at `offset`. -/
def writeInto (dst src : List ℚ) (offset : Nat) : List ℚ :=
  dst.take offset ++ src ++ dst.drop (offset + src.length)

/-- `concatenateAudioBuffers` (audioUtils.ts lines 78-100).  The empty case
returns `context.createBuffer(1, 1, 24000)`; otherwise channel count and
sample rate come from `buffers[0]` alone, the length is the sum of the input
lengths, and each of the first buffer's channels is filled by copying every
input's channel `i` at offsets advancing by that input's `length`. -/
def concatenateAudioBuffers (buffers : List Audio) : Audio :=
  match buffers with
  | [] => createBuffer 1 1 24000
  | b :: _ =>
    let totalLength := (buffers.map (·.length)).sum
    { numberOfChannels := b.numberOfChannels
      length := totalLength
      sampleRate := b.sampleRate
      channelData :=
        (List.range b.numberOfChannels).map (fun i =>
          (buffers.foldl
            (fun (acc : List ℚ × Nat) buf =>
              (writeInto acc.1 (buf.channelData.getD i []) acc.2,
               acc.2 + buf.length))
            (List.replicate totalLength 0, 0)).1) }

/-! ## components/StoryPlayer.tsx (playback engine) -/

/-- The playback engine's state: React state plus the refs that carry the
clock arithmetic.  `sourceOffset` is the offset at which the active
`AudioBufferSourceNode` was started (`none`: no active source, as after
`stopAudio`).  The hardware clock `audioContext.currentTime` is passed to each
transition as an explicit `now` argument. -/
structure PlayerState where
  isPlaying : Bool
  isBuffering : Bool
  currentSegmentIndex : Nat
  startTime : ℚ
  segmentOffset : ℚ
  segmentProgress : ℚ
  playbackSpeed : ℚ
  sourceOffset : Option ℚ
  deriving DecidableEq, Repr

/-- `stopAudio` (StoryPlayer lines 241-247): drop the active source. -/
def stopAudio (st : PlayerState) : PlayerState :=
  { st with sourceOffset := none }

/-- `playSegment(segment, offset)` (StoryPlayer lines 249-282) at hardware
time `now`: a missing segment or missing audio sets buffering and returns;
otherwise the old source is stopped, a new one is started at `offset`, and
`startTimeRef` is set to `now - offset / playbackSpeed`. -/
def playSegment (segment : Option StorySegment) (offset : ℚ) (now : ℚ)
    (st : PlayerState) : PlayerState :=
  match segment with
  | none => { st with isBuffering := true }
  | some seg =>
    match seg.audioBuffer with
    | none => { st with isBuffering := true }
    | some _ =>
      let st := stopAudio st
      { st with
        startTime := now - offset / st.playbackSpeed
        sourceOffset := some offset }

/-- `handleSegmentEnd` (StoryPlayer lines 284-301): advance to
`currentIndex + 1`, reset progress and offset; if that segment's audio is in
the store play it from 0, else stop playing when past the estimate with no
background generation, else buffer. -/
def handleSegmentEnd (story : AudioStory) (isBackgroundGenerating : Bool)
    (now : ℚ) (st : PlayerState) : PlayerState :=
  let nextIndex := st.currentSegmentIndex + 1
  let st := { st with
    currentSegmentIndex := nextIndex
    segmentProgress := 0
    segmentOffset := 0 }
  if ((story.segments.get? nextIndex).bind (·.audioBuffer)).isSome then
    playSegment (story.segments.get? nextIndex) 0 now st
  else
    if story.totalSegmentsEstimate ≤ nextIndex ∧ isBackgroundGenerating = false then
      { st with isPlaying := false }
    else
      { st with isBuffering := true }

/-- `togglePlayback` (StoryPlayer lines 303-321) at hardware time `now`, with
`currentSegment = story.segments[currentSegmentIndex]`.  Pausing saves
`(now - startTime) * playbackSpeed` into `segmentOffsetRef` (when not
buffering; the audio context exists whenever playback has started) and stops
the source; resuming replays the current segment from the saved offset, or
buffers when its audio is absent. -/
def togglePlayback (currentSegment : Option StorySegment) (now : ℚ)
    (st : PlayerState) : PlayerState :=
  if st.isPlaying then
    let st :=
      if st.isBuffering = false then
        { st with segmentOffset := (now - st.startTime) * st.playbackSpeed }
      else st
    let st := stopAudio st
    { st with isPlaying := false }
  else
    let st := { st with isPlaying := true }
    if ((currentSegment.bind (·.audioBuffer))).isSome then
      let st := { st with isBuffering := false }
      playSegment currentSegment st.segmentOffset now st
    else
      { st with isBuffering := true }

/-! ## App.tsx (generation scheduler) -/

/-- `WITH_TIMEOUT_MS` (App.tsx line 27). -/
def WITH_TIMEOUT_MS : ℚ := 60000

/-- Timeout bound on the text generation call (App.tsx line 113). -/
def textTimeoutMs : ℚ := WITH_TIMEOUT_MS

/-- Timeout bound on the audio synthesis call (App.tsx line 116):
`WITH_TIMEOUT_MS * 1.5`. -/
def audioTimeoutMs : ℚ := WITH_TIMEOUT_MS * 1.5

/-- Stable sort by `index`, modelling
`[...].sort((a, b) => a.index - b.index)` (App.tsx line 120; JS `sort` is
stable): insert each element before the first strictly larger index. -/
def insertByIndex (seg : StorySegment) : List StorySegment → List StorySegment
  | [] => [seg]
  | x :: xs =>
    if x.index ≤ seg.index then x :: insertByIndex seg xs
    else seg :: x :: xs

/-- See `insertByIndex`. -/
def sortByIndex (l : List StorySegment) : List StorySegment :=
  l.foldr insertByIndex []

/-- The `setStory` committer of `generateNextSegment` (App.tsx lines
118-121), applied to the store contents `prev` at commit time: a `null` story
or an existing entry for `index` leaves the store untouched, otherwise the
finished segment is appended and the list re-sorted by index. -/
def commitSegment (prev : Option AudioStory) (index : Nat)
    (seg : StorySegment) : Option AudioStory :=
  match prev with
  | none => none
  | some p =>
    if p.segments.any (fun s => s.index == index) then some p
    else some { p with segments := sortByIndex (p.segments ++ [seg]) }

/-- The scheduler slice of `App`'s state. -/
structure AppSt where
  appState : AppState
  route : Option RouteDetails
  story : Option AudioStory
  isGenerating : Bool
  isBackgroundGenerating : Bool
  currentPlayingIndex : Nat
  deriving DecidableEq, Repr

/-- The generation-trigger effect (App.tsx lines 98-104), run after every
change of `story`, `route`, `appState`, `currentPlayingIndex` or
`selectedVoice`: the index handed to `generateNextSegment`, or `none` when
nothing is started. -/
def generationTrigger (story : Option AudioStory) (route : Option RouteDetails)
    (appState : AppState) (currentPlayingIndex : Nat)
    (isGenerating : Bool) : Option Nat :=
  match story, route with
  | some st, some _ =>
    if appState.toNat < AppState.READY_TO_PLAY.toNat then none
    else
      let totalGenerated := st.segments.length
      if totalGenerated < currentPlayingIndex + 3 ∧
          totalGenerated < st.totalSegmentsEstimate ∧
          isGenerating = false then
        some (totalGenerated + 1)
      else none
  | _, _ => none

/-- `generateNextSegment(index)` (App.tsx lines 106-128) as one transition.
The two awaited service calls are oracles: `textResult` is the text
`generateSegment` resolved with (`none`: it threw, or `withTimeout`
rejected), `audioResult` the buffer from `generateSegmentAudio` likewise.
The guard returns unchanged when route or story is missing or a generation
is already in flight; otherwise the flag is held for the attempt, a doubly
successful attempt commits `{...segmentData, audioBuffer}` through
`commitSegment`, any failure skips the commit, and the `finally` block
clears both flags. -/
def generateNextSegment (st : AppSt) (index : Nat)
    (textResult : Option String) (audioResult : Option Audio) : AppSt :=
  if st.route.isNone || st.story.isNone || st.isGenerating then st
  else
    match textResult, audioResult with
    | some text, some audio =>
      { st with
        story := commitSegment st.story index
          { index := index, text := text, audioBuffer := some audio }
        isGenerating := false
        isBackgroundGenerating := false }
    | _, _ =>
      { st with
        isGenerating := false
        isBackgroundGenerating := false }

/-- The `setStory` committer of `handleVoiceChange` (App.tsx lines 163-169)
with `prev` the store contents at commit time and
`currentSeg = story.segments[currentPlayingIndex]` captured at handler entry;
the committer writes `{...currentSeg, audioBuffer: newAudio}` at position
`currentPlayingIndex` of `prev.segments`.  The `if (currentSeg)` guard at
handler entry means the committer only runs when the captured position was
occupied. -/
def handleVoiceChangeCommit (prev : AudioStory) (currentSeg : StorySegment)
    (currentPlayingIndex : Nat) (newAudio : Audio) : AudioStory :=
  { prev with
    segments := prev.segments.set currentPlayingIndex
      { currentSeg with audioBuffer := some newAudio } }

/-! ## Helper lemmas -/

/-- The header block is 44 bytes long. -/
theorem wavHeaderBytes_length (k r : Nat) : (wavHeaderBytes k r).length = 44 := rfl

/-- Each encoded sample contributes exactly two bytes. -/
theorem flatMap_i16le_length (pcm : List ℤ) :
    (pcm.flatMap i16le).length = 2 * pcm.length := by
  induction pcm with
  | nil => rfl
  | cons s rest ih =>
    simp only [List.flatMap_cons, List.length_append, ih, i16le, u16le]
    simp
    omega

/-- Reading a byte past a block of known length. -/
theorem byteAt_append_right (l₁ l₂ : List Nat) (j : Nat) :
    byteAt (l₁ ++ l₂) (l₁.length + j) = byteAt l₂ j := by
  induction l₁ with
  | nil => simp [byteAt]
  | cons a l ih =>
    have h : (a :: l).length + j = (l.length + j) + 1 := by simp; omega
    rw [List.cons_append, h]
    simpa [byteAt, List.getD_cons_succ] using ih

/-- The two bytes belonging to sample `i` inside the flattened PCM data. -/
theorem flatMap_i16le_byteAt (pcm : List ℤ) (i : Nat) (h : i < pcm.length) :
    byteAt (pcm.flatMap i16le) (2 * i) =
      ((pcm.getD i 0).emod 65536).toNat % 256 ∧
    byteAt (pcm.flatMap i16le) (2 * i + 1) =
      ((pcm.getD i 0).emod 65536).toNat / 256 % 256 := by
  induction pcm generalizing i with
  | nil => simp at h
  | cons s rest ih =>
    cases i with
    | zero => exact ⟨rfl, rfl⟩
    | succ n =>
      have hn : n < rest.length := by simpa using h
      have hgetD : (s :: rest).getD (n + 1) 0 = rest.getD n 0 := rfl
      have hlen : 2 * (n + 1) = (i16le s).length + 2 * n := by
        simp [i16le, u16le]; omega
      have hlen' : 2 * (n + 1) + 1 = (i16le s).length + (2 * n + 1) := by
        simp [i16le, u16le]; omega
      rw [List.flatMap_cons]
      constructor
      · rw [hlen, byteAt_append_right, hgetD]
        exact (ih n hn).1
      · rw [hlen', byteAt_append_right, hgetD]
        exact (ih n hn).2

/-- ASCII bytes of the `RIFF` tag. -/
theorem writeStringBytes_RIFF : writeStringBytes "RIFF" = [82, 73, 70, 70] := by decide

/-- ASCII bytes of the `WAVE` tag. -/
theorem writeStringBytes_WAVE : writeStringBytes "WAVE" = [87, 65, 86, 69] := by decide

/-- ASCII bytes of the `fmt ` tag. -/
theorem writeStringBytes_fmt : writeStringBytes "fmt " = [102, 109, 116, 32] := by decide

/-- ASCII bytes of the `data` tag. -/
theorem writeStringBytes_data : writeStringBytes "data" = [100, 97, 116, 97] := by decide

/-- The header block with ASCII tags spelled out and the channel arithmetic
reduced. -/
theorem wavHeaderBytes_eq (k r : Nat) :
    wavHeaderBytes k r =
      [82, 73, 70, 70] ++ u32le (44 + k * 2 - 8) ++
      [87, 65, 86, 69] ++ [102, 109, 116, 32] ++ u32le 16 ++ u16le 1 ++ u16le 1 ++
      u32le r ++ u32le (r * 2) ++ u16le 2 ++ u16le 16 ++
      [100, 97, 116, 97] ++ u32le (k * 2) := by
  simp only [wavHeaderBytes, writeStringBytes_RIFF, writeStringBytes_WAVE,
    writeStringBytes_fmt, writeStringBytes_data, Nat.one_mul]

/-- `insertByIndex` permutes consing the element on. -/
theorem insertByIndex_perm (seg : StorySegment) (l : List StorySegment) :
    (insertByIndex seg l).Perm (seg :: l) := by
  induction l with
  | nil => simp [insertByIndex]
  | cons x xs ih =>
    by_cases h : x.index ≤ seg.index
    · simp only [insertByIndex, h, if_true]
      exact ((ih.cons x).trans (List.Perm.swap seg x xs))
    · simp only [insertByIndex, h, if_false]
      exact List.Perm.refl _

/-- `sortByIndex` permutes its input. -/
theorem sortByIndex_perm (l : List StorySegment) : (sortByIndex l).Perm l := by
  induction l with
  | nil => simp [sortByIndex]
  | cons x xs ih =>
    have h : sortByIndex (x :: xs) = insertByIndex x (sortByIndex xs) := rfl
    rw [h]
    exact (insertByIndex_perm x (sortByIndex xs)).trans (ih.cons x)

/-! ## Claim theorems -/

/-- C1 (counterexample): running `handleSegmentEnd` on the final segment of a
one-segment story moves the current segment index to
`totalSegmentsEstimate`, leaving the claimed range `[0, totalSegmentsEstimate)`:
the invariant fails at this reachable state (the initial index is 0 and the
story has one generated segment with audio). -/
theorem handleSegmentEnd_counterexample :
    ¬ ((handleSegmentEnd ⟨1, ["o"], [⟨1, "a", some ⟨1, 1, 24000, [[0]]⟩⟩]⟩ false 0
        ⟨true, false, 0, 0, 0, 0, 1, some 0⟩).currentSegmentIndex <
      (⟨1, ["o"], [⟨1, "a", some ⟨1, 1, 24000, [[0]]⟩⟩]⟩ : AudioStory).totalSegmentsEstimate) := by
  decide

/-- C1 (amended): the end-of-segment handler always advances the current
index by exactly one, so from any index below `totalSegmentsEstimate` the new
index stays within `[0, totalSegmentsEstimate]` — after the final segment it
equals `totalSegmentsEstimate` rather than staying strictly below it — and
when that step leaves the estimated range with no stored audio and no
background generation pending, playback stops. -/
theorem handleSegmentEnd_spec (story : AudioStory) (bg : Bool) (now : ℚ)
    (st : PlayerState)
    (hidx : st.currentSegmentIndex < story.totalSegmentsEstimate) :
    (handleSegmentEnd story bg now st).currentSegmentIndex =
      st.currentSegmentIndex + 1 ∧
    (handleSegmentEnd story bg now st).currentSegmentIndex ≤
      story.totalSegmentsEstimate ∧
    (st.currentSegmentIndex + 1 = story.totalSegmentsEstimate →
      ((story.segments.get? (st.currentSegmentIndex + 1)).bind
        (·.audioBuffer)).isSome = false →
      bg = false →
      (handleSegmentEnd story bg now st).isPlaying = false) := by
  have hinc : (handleSegmentEnd story bg now st).currentSegmentIndex =
      st.currentSegmentIndex + 1 := by
    simp only [handleSegmentEnd]
    split
    · simp only [playSegment]
      split
      · rfl
      · split <;> rfl
    · split <;> rfl
  refine ⟨hinc, by omega, ?_⟩
  intro hfin hnoaudio hbg
  simp only [handleSegmentEnd, hnoaudio, Bool.false_eq_true, if_false]
  rw [if_pos ⟨by omega, hbg⟩]

/-- C1 (witness): the amended statement evaluated on a two-chapter story at
index 0. -/
theorem handleSegmentEnd_spec_witness :
    (⟨true, false, 0, 0, 0, 0, 1, some 0⟩ : PlayerState).currentSegmentIndex <
      (⟨2, [], [⟨1, "a", none⟩]⟩ : AudioStory).totalSegmentsEstimate ∧
    (handleSegmentEnd ⟨2, [], [⟨1, "a", none⟩]⟩ false 0
      ⟨true, false, 0, 0, 0, 0, 1, some 0⟩).currentSegmentIndex = 0 + 1 :=
  ⟨by decide,
   (handleSegmentEnd_spec ⟨2, [], [⟨1, "a", none⟩]⟩ false 0
      ⟨true, false, 0, 0, 0, 0, 1, some 0⟩ (by decide)).1⟩

/-- C2: with route and story present, `generateNextSegment` starts nothing
while the single-flight flag is set (the state is returned untouched); the
text call's bound is 60000 ms and the audio call's bound is 90000 ms
(`WITH_TIMEOUT_MS * 1.5`); and an attempt whose text or audio oracle fails
(timeout or error) leaves the store unchanged and releases both flags — no
retry happens inside the attempt, only a later trigger evaluation can start a
new one. -/
theorem generateNextSegment_single_flight (st : AppSt) (index : Nat)
    (textResult : Option String) (audioResult : Option Audio)
    (hroute : st.route ≠ none) (hstory : st.story ≠ none) :
    (st.isGenerating = true →
      generateNextSegment st index textResult audioResult = st) ∧
    textTimeoutMs = 60000 ∧ audioTimeoutMs = 90000 ∧
    (st.isGenerating = false → textResult = none ∨ audioResult = none →
      (generateNextSegment st index textResult audioResult).story = st.story ∧
      (generateNextSegment st index textResult audioResult).isGenerating = false ∧
      (generateNextSegment st index textResult audioResult).isBackgroundGenerating
        = false) := by
  refine ⟨?_, by norm_num [textTimeoutMs, WITH_TIMEOUT_MS],
    by norm_num [audioTimeoutMs, WITH_TIMEOUT_MS], ?_⟩
  · intro hgen
    simp [generateNextSegment, hgen]
  · intro hgen hfail
    rcases hfail with hf | hf <;>
      cases textResult <;> cases audioResult <;>
        simp_all [generateNextSegment, hroute, hstory, hgen]

/-- C2 (witness): the timeout bounds, via the theorem at a concrete state. -/
theorem generateNextSegment_single_flight_witness :
    ((⟨.READY_TO_PLAY, some ⟨300⟩, some ⟨5, [], []⟩, true, false, 0⟩ : AppSt).route ≠ none) ∧
    textTimeoutMs = 60000 ∧ audioTimeoutMs = 90000 :=
  ⟨by decide,
   (generateNextSegment_single_flight ⟨.READY_TO_PLAY, some ⟨300⟩, some ⟨5, [], []⟩, true, false, 0⟩
      1 none none (by decide) (by decide)).2.1,
   (generateNextSegment_single_flight ⟨.READY_TO_PLAY, some ⟨300⟩, some ⟨5, [], []⟩, true, false, 0⟩
      1 none none (by decide) (by decide)).2.2.1⟩

/-- C3: once the app is at `READY_TO_PLAY` or beyond with story and route
present, the trigger effect starts generating index
`segments.length + 1` exactly when `segments.length < currentPlayingIndex + 3`
and `segments.length < totalSegmentsEstimate` and no generation is in flight;
the started index is always `segments.length + 1`; and with segment 1 playing
(`currentPlayingIndex = 0`) every started index is at most 3 — segment 4 or
later is never requested. -/
theorem generationTrigger_spec (s : AudioStory) (r : RouteDetails)
    (apst : AppState) (cpi : Nat) (gen : Bool)
    (happ : AppState.READY_TO_PLAY.toNat ≤ apst.toNat) :
    (generationTrigger (some s) (some r) apst cpi gen =
        some (s.segments.length + 1) ↔
      s.segments.length < cpi + 3 ∧ s.segments.length < s.totalSegmentsEstimate ∧
        gen = false) ∧
    (∀ n, generationTrigger (some s) (some r) apst cpi gen = some n →
      n = s.segments.length + 1) ∧
    (cpi = 0 → ∀ n, generationTrigger (some s) (some r) apst cpi gen = some n →
      n ≤ 3) := by
  have happ' : ¬ apst.toNat < AppState.READY_TO_PLAY.toNat := by omega
  by_cases hcond : s.segments.length < cpi + 3 ∧
      s.segments.length < s.totalSegmentsEstimate ∧ gen = false
  · have heq : generationTrigger (some s) (some r) apst cpi gen =
        some (s.segments.length + 1) := by
      simp [generationTrigger, happ', hcond]
    refine ⟨⟨fun _ => hcond, fun _ => heq⟩, ?_, ?_⟩
    · intro n h
      rw [heq] at h
      exact (Option.some_inj.mp h).symm
    · intro hcpi n h
      rw [heq] at h
      have := (Option.some_inj.mp h).symm
      omega
  · have heq : generationTrigger (some s) (some r) apst cpi gen = none := by
      simp [generationTrigger, happ', hcond]
    refine ⟨⟨fun h => absurd (heq ▸ h) (by simp), fun h => absurd h hcond⟩, ?_, ?_⟩
    · intro n h
      rw [heq] at h
      exact absurd h (by simp)
    · intro hcpi n h
      rw [heq] at h
      exact absurd h (by simp)

/-- C3 (witness): with one generated segment and segment 1 playing, the
trigger starts index 2. -/
theorem generationTrigger_spec_witness :
    AppState.READY_TO_PLAY.toNat ≤ AppState.PLAYING.toNat ∧
    generationTrigger (some ⟨5, [], [⟨1, "a", none⟩]⟩) (some ⟨300⟩)
      AppState.PLAYING 0 false = some 2 :=
  ⟨by decide,
   (generationTrigger_spec ⟨5, [], [⟨1, "a", none⟩]⟩ ⟨300⟩ AppState.PLAYING 0 false
      (by decide)).1.mpr (by simp)⟩

/-- C4 (counterexample): the commit only checks that the current store is
non-null and has no entry for the index — it does not check that the story it
was generated for is still current.  Here the segment was generated for a
five-chapter story, the current story is a different three-chapter one
lacking index 2, and the commit changes the current store instead of
discarding the completion. -/
theorem commitSegment_stale_story_counterexample :
    (⟨3, [], [⟨1, "b", none⟩]⟩ : AudioStory) ≠ (⟨5, [], [⟨1, "a", none⟩]⟩ : AudioStory) ∧
    commitSegment (some ⟨3, [], [⟨1, "b", none⟩]⟩) 2 ⟨2, "x", none⟩ ≠
      some ⟨3, [], [⟨1, "b", none⟩]⟩ := by
  exact ⟨by decide, by decide⟩

/-- C4 (amended): the commit discards the completion and leaves the store
entirely unchanged when the current story is `null` (as after a reset) or
when an entry for the index already exists — so a second completion for an
index never overwrites the first's text — and it preserves the invariant
that no index occurs twice in the store.  (A late completion aimed at a
story that was replaced by a different non-null story lacking that index is
applied, not discarded.) -/
theorem commitSegment_spec (p : AudioStory) (index : Nat) (seg : StorySegment)
    (hseg : seg.index = index) :
    commitSegment none index seg = none ∧
    ((∃ s0 ∈ p.segments, s0.index = index) →
      commitSegment (some p) index seg = some p) ∧
    ((∀ j, p.segments.countP (fun s => s.index == j) ≤ 1) →
      ∀ q, commitSegment (some p) index seg = some q →
        ∀ j, q.segments.countP (fun s => s.index == j) ≤ 1) := by
  refine ⟨rfl, ?_, ?_⟩
  · intro ⟨s0, hs0, hidx⟩
    have h : p.segments.any (fun s => s.index == index) = true := by
      simp [List.any_eq_true]
      exact ⟨s0, hs0, by simp [hidx]⟩
    simp [commitSegment, h]
  · intro hnodup q hq j
    by_cases hdup : p.segments.any (fun s => s.index == index) = true
    · simp [commitSegment, hdup] at hq
      rw [← hq]
      exact hnodup j
    · simp [commitSegment, hdup] at hq
      have hperm := sortByIndex_perm (p.segments ++ [seg])
      have hcount : q.segments.countP (fun s => s.index == j) =
          (p.segments ++ [seg]).countP (fun s => s.index == j) := by
        rw [← hq]
        exact hperm.countP_eq _
      rw [hcount, List.countP_append]
      by_cases hji : j = index
      · subst hji
        have hzero : p.segments.countP (fun s => s.index == j) = 0 := by
          rw [List.countP_eq_zero]
          intro a ha
          simp only [beq_iff_eq]
          intro hcontra
          exact hdup (List.any_eq_true.mpr ⟨a, ha, by simp [hcontra]⟩)
        rw [hzero]
        simp [hseg]
      · have hone : List.countP (fun s => s.index == j) [seg] = 0 := by
          simp [hseg, Ne.symm hji]
        rw [hone]
        simpa using hnodup j

/-- C4 (witness): committing into a `null` store is a no-op. -/
theorem commitSegment_spec_witness :
    (⟨2, "x", none⟩ : StorySegment).index = 2 ∧
    commitSegment none 2 ⟨2, "x", none⟩ = none :=
  ⟨rfl, (commitSegment_spec ⟨3, [], [⟨1, "a", none⟩]⟩ 2 ⟨2, "x", none⟩ rfl).1⟩

/-- C5: the voice-change commit replaces exactly the entry at the current
playing position: that entry keeps its text and receives the new audio,
every other position is untouched, and the story's estimate and outline are
unchanged. -/
theorem handleVoiceChangeCommit_spec (prev : AudioStory)
    (currentSeg : StorySegment) (cpi : Nat) (newAudio : Audio)
    (hc : prev.segments.get? cpi = some currentSeg) :
    ((handleVoiceChangeCommit prev currentSeg cpi newAudio).segments.get? cpi =
      some { currentSeg with audioBuffer := some newAudio }) ∧
    ((handleVoiceChangeCommit prev currentSeg cpi newAudio).segments.get?
        cpi).map (·.text) = some currentSeg.text ∧
    (∀ j, j ≠ cpi →
      (handleVoiceChangeCommit prev currentSeg cpi newAudio).segments.get? j =
        prev.segments.get? j) ∧
    (handleVoiceChangeCommit prev currentSeg cpi newAudio).totalSegmentsEstimate =
      prev.totalSegmentsEstimate ∧
    (handleVoiceChangeCommit prev currentSeg cpi newAudio).outline = prev.outline := by
  have hlt : cpi < prev.segments.length := by
    by_contra h
    rw [List.get?_eq_none.mpr (by omega)] at hc
    exact absurd hc (by simp)
  have h1 : (handleVoiceChangeCommit prev currentSeg cpi newAudio).segments.get? cpi =
      some { currentSeg with audioBuffer := some newAudio } := by
    simp [handleVoiceChangeCommit, List.get?_set_eq, hlt]
  refine ⟨h1, by rw [h1]; rfl, ?_, rfl, rfl⟩
  · intro j hj
    simp only [handleVoiceChangeCommit]
    rw [List.get?_set_ne _ _ (Ne.symm hj)]

/-- C5 (witness): the commit evaluated on a one-segment story at position 0:
the text stays, the audio is replaced. -/
theorem handleVoiceChangeCommit_spec_witness :
    (AudioStory.segments ⟨2, [], [⟨1, "a", none⟩]⟩).get? 0 = some ⟨1, "a", none⟩ ∧
    (handleVoiceChangeCommit ⟨2, [], [⟨1, "a", none⟩]⟩ ⟨1, "a", none⟩ 0
        ⟨1, 1, 24000, [[0]]⟩).segments.get? 0 =
      some ⟨1, "a", some ⟨1, 1, 24000, [[0]]⟩⟩ :=
  ⟨by decide,
   (handleVoiceChangeCommit_spec ⟨2, [], [⟨1, "a", none⟩]⟩ ⟨1, "a", none⟩ 0
      ⟨1, 1, 24000, [[0]]⟩ (by decide)).1⟩

/-- C6: pausing while playing at speed `s ≠ 0` saves the logical offset
`(now − startTime) * s`; resuming at any later hardware time starts the
source exactly at that saved offset with the start-time reference set to
`now − offset / s`, and the logical elapsed time right after resume equals
the saved offset — independent of how long the pause lasted. -/
theorem pause_resume_spec (st : PlayerState) (seg : StorySegment)
    (t1 t2 : ℚ)
    (hplay : st.isPlaying = true) (hbuf : st.isBuffering = false)
    (hspeed : st.playbackSpeed ≠ 0) (haudio : seg.audioBuffer.isSome) :
    (togglePlayback (some seg) t1 st).segmentOffset =
      (t1 - st.startTime) * st.playbackSpeed ∧
    (togglePlayback (some seg) t2 (togglePlayback (some seg) t1 st)).sourceOffset =
      some ((togglePlayback (some seg) t1 st).segmentOffset) ∧
    (togglePlayback (some seg) t2 (togglePlayback (some seg) t1 st)).startTime =
      t2 - (togglePlayback (some seg) t1 st).segmentOffset / st.playbackSpeed ∧
    (t2 - (togglePlayback (some seg) t2 (togglePlayback (some seg) t1 st)).startTime) *
        (togglePlayback (some seg) t2 (togglePlayback (some seg) t1 st)).playbackSpeed =
      (togglePlayback (some seg) t1 st).segmentOffset := by
  obtain ⟨audio, haudio'⟩ := Option.isSome_iff_exists.mp haudio
  have hpause : togglePlayback (some seg) t1 st =
      { st with
        segmentOffset := (t1 - st.startTime) * st.playbackSpeed
        sourceOffset := none
        isPlaying := false } := by
    simp [togglePlayback, hplay, hbuf, stopAudio]
  have hresume : togglePlayback (some seg) t2 (togglePlayback (some seg) t1 st) =
      { st with
        segmentOffset := (t1 - st.startTime) * st.playbackSpeed
        isPlaying := true
        isBuffering := false
        startTime := t2 - ((t1 - st.startTime) * st.playbackSpeed) / st.playbackSpeed
        sourceOffset := some ((t1 - st.startTime) * st.playbackSpeed) } := by
    rw [hpause]
    simp [togglePlayback, playSegment, stopAudio, haudio']
  refine ⟨by rw [hpause], by rw [hresume, hpause], by rw [hresume, hpause], ?_⟩
  rw [hresume, hpause]
  field_simp

/-- C6 (witness): pausing at `t1 = 5` with speed 2 from start time 0 saves
offset 10 = (5 − 0) · 2. -/
theorem pause_resume_spec_witness :
    (⟨true, false, 0, 0, 0, 0, 2, some 0⟩ : PlayerState).isPlaying = true ∧
    (⟨true, false, 0, 0, 0, 0, 2, some 0⟩ : PlayerState).playbackSpeed ≠ 0 ∧
    (togglePlayback (some ⟨1, "a", some ⟨1, 1, 24000, [[0]]⟩⟩) 5
        (⟨true, false, 0, 0, 0, 0, 2, some 0⟩ : PlayerState)).segmentOffset =
      (5 - (0 : ℚ)) * 2 :=
  ⟨rfl, by norm_num,
   (pause_resume_spec ⟨true, false, 0, 0, 0, 0, 2, some 0⟩
      ⟨1, "a", some ⟨1, 1, 24000, [[0]]⟩⟩ 5 100 rfl rfl (by norm_num) rfl).1⟩

/-- C7: for every duration `d ≥ 0`, `calculateTotalSegments d` equals
`max(1, ceil(d / 60))`; in particular `d = 0, 59, 60` give 1, `d = 61`
gives 2 and `d = 600` gives 10. -/
theorem calculateTotalSegments_spec :
    (∀ d : ℚ, 0 ≤ d → calculateTotalSegments d = max 1 ⌈d / 60⌉) ∧
    calculateTotalSegments 0 = 1 ∧ calculateTotalSegments 59 = 1 ∧
    calculateTotalSegments 60 = 1 ∧ calculateTotalSegments 61 = 2 ∧
    calculateTotalSegments 600 = 10 := by
  refine ⟨fun d _ => rfl, ?_, ?_, ?_, ?_, ?_⟩ <;>
    norm_num [calculateTotalSegments, TARGET_SEGMENT_DURATION_SEC, Int.ceil_eq_iff]

/-- C8: for every requested count `N ≥ 1` the outline has exactly `N`
entries whatever the generator produced: outright failure and the empty
array give `N` identical error-filler lines, a shorter non-empty array is
padded with the generic continuation line, a longer one is truncated to
`N`. -/
theorem generateStoryOutline_spec (N : Nat) (hN : 1 ≤ N) :
    (∀ genResult, (generateStoryOutline genResult N).length = N) ∧
    generateStoryOutline none N = List.replicate N outlineErrorFiller ∧
    generateStoryOutline (some []) N = List.replicate N outlineErrorFiller ∧
    (∀ l : List String, l ≠ [] → l.length ≤ N →
        generateStoryOutline (some l) N =
          l ++ List.replicate (N - l.length) outlinePadFiller) ∧
    (∀ l : List String, l ≠ [] → N ≤ l.length →
        generateStoryOutline (some l) N = l.take N) := by
  refine ⟨?_, rfl, by simp [generateStoryOutline], ?_, ?_⟩
  · intro genResult
    match genResult with
    | none => simp [generateStoryOutline]
    | some l =>
      by_cases hl : l.isEmpty
      · simp [generateStoryOutline, hl]
      · simp only [Bool.not_eq_true] at hl
        simp only [generateStoryOutline, hl, Bool.false_eq_true, if_false,
          List.length_take, List.length_append, List.length_replicate]
        omega
  · intro l hl hlen
    have hl' : l.isEmpty = false := by simp [List.isEmpty_iff, hl]
    simp only [generateStoryOutline, hl', Bool.false_eq_true, if_false]
    rw [List.take_of_length_le (by simp; omega)]
  · intro l hl hlen
    have hl' : l.isEmpty = false := by simp [List.isEmpty_iff, hl]
    simp only [generateStoryOutline, hl', Bool.false_eq_true, if_false]
    have h0 : N - l.length = 0 := by omega
    rw [h0]
    simp

/-- C8 (witness): a one-entry generator result normalized to the requested
count of 2. -/
theorem generateStoryOutline_spec_witness :
    1 ≤ 2 ∧ (generateStoryOutline (some ["a"]) 2).length = 2 :=
  ⟨by decide, (generateStoryOutline_spec 2 (by decide)).1 (some ["a"])⟩

/-- C9: encoding `k` mono PCM16 samples at rate `r` yields exactly
`44 + 2k` bytes; the tags at offsets 0, 8, 12, 36 spell `RIFF`, `WAVE`,
`fmt `, `data`; the little-endian fields decode to `ChunkSize = 36 + 2k`,
`Subchunk1Size = 16`, `AudioFormat = 1`, `NumChannels = 1`,
`SampleRate = r`, `ByteRate = r * 2`, `BlockAlign = 2`,
`BitsPerSample = 16`, `Subchunk2Size = 2k`; and each sample decodes
unchanged from offset `44 + 2i`. -/
theorem pcmToWav_spec (pcm : List ℤ) (r : Nat)
    (hrange : ∀ s ∈ pcm, -32768 ≤ s ∧ s < 32768)
    (hr : r < 2147483648) (hk : 36 + 2 * pcm.length < 4294967296) :
    (pcmToWav pcm r).length = 44 + 2 * pcm.length ∧
    (pcmToWav pcm r).take 4 = writeStringBytes "RIFF" ∧
    ((pcmToWav pcm r).drop 8).take 4 = writeStringBytes "WAVE" ∧
    ((pcmToWav pcm r).drop 12).take 4 = writeStringBytes "fmt " ∧
    ((pcmToWav pcm r).drop 36).take 4 = writeStringBytes "data" ∧
    readU32 (pcmToWav pcm r) 4 = 36 + 2 * pcm.length ∧
    readU32 (pcmToWav pcm r) 16 = 16 ∧
    readU16 (pcmToWav pcm r) 20 = 1 ∧
    readU16 (pcmToWav pcm r) 22 = 1 ∧
    readU32 (pcmToWav pcm r) 24 = r ∧
    readU32 (pcmToWav pcm r) 28 = r * 2 ∧
    readU16 (pcmToWav pcm r) 32 = 2 ∧
    readU16 (pcmToWav pcm r) 34 = 16 ∧
    readU32 (pcmToWav pcm r) 40 = 2 * pcm.length ∧
    (∀ i, i < pcm.length → readI16 (pcmToWav pcm r) (44 + 2 * i) = pcm.getD i 0) := by
  refine ⟨?_, ?_, ?_, ?_, ?_, ?_, ?_, ?_, ?_, ?_, ?_, ?_, ?_, ?_, ?_⟩
  · simp only [pcmToWav, List.length_append, wavHeaderBytes_length,
      flatMap_i16le_length]
  · rw [writeStringBytes_RIFF]
    simp only [pcmToWav, wavHeaderBytes_eq, u32le, u16le,
      List.cons_append, List.nil_append, List.append_assoc]
    simp
  · rw [writeStringBytes_WAVE]
    simp only [pcmToWav, wavHeaderBytes_eq, u32le, u16le,
      List.cons_append, List.nil_append, List.append_assoc]
    simp
  · rw [writeStringBytes_fmt]
    simp only [pcmToWav, wavHeaderBytes_eq, u32le, u16le,
      List.cons_append, List.nil_append, List.append_assoc]
    simp
  · rw [writeStringBytes_data]
    simp only [pcmToWav, wavHeaderBytes_eq, u32le, u16le,
      List.cons_append, List.nil_append, List.append_assoc]
    simp
  · simp only [pcmToWav, wavHeaderBytes_eq, u32le, u16le, readU32, byteAt,
      List.cons_append, List.nil_append, List.append_assoc]
    simp only [List.getD_cons_succ, List.getD_cons_zero]
    omega
  · simp only [pcmToWav, wavHeaderBytes_eq, u32le, u16le, readU32, byteAt,
      List.cons_append, List.nil_append, List.append_assoc]
    simp only [List.getD_cons_succ, List.getD_cons_zero]
  · simp only [pcmToWav, wavHeaderBytes_eq, u32le, u16le, readU16, byteAt,
      List.cons_append, List.nil_append, List.append_assoc]
    simp only [List.getD_cons_succ, List.getD_cons_zero]
  · simp only [pcmToWav, wavHeaderBytes_eq, u32le, u16le, readU16, byteAt,
      List.cons_append, List.nil_append, List.append_assoc]
    simp only [List.getD_cons_succ, List.getD_cons_zero]
  · simp only [pcmToWav, wavHeaderBytes_eq, u32le, u16le, readU32, byteAt,
      List.cons_append, List.nil_append, List.append_assoc]
    simp only [List.getD_cons_succ, List.getD_cons_zero]
    omega
  · simp only [pcmToWav, wavHeaderBytes_eq, u32le, u16le, readU32, byteAt,
      List.cons_append, List.nil_append, List.append_assoc]
    simp only [List.getD_cons_succ, List.getD_cons_zero]
    omega
  · simp only [pcmToWav, wavHeaderBytes_eq, u32le, u16le, readU16, byteAt,
      List.cons_append, List.nil_append, List.append_assoc]
    simp only [List.getD_cons_succ, List.getD_cons_zero]
  · simp only [pcmToWav, wavHeaderBytes_eq, u32le, u16le, readU16, byteAt,
      List.cons_append, List.nil_append, List.append_assoc]
    simp only [List.getD_cons_succ, List.getD_cons_zero]
  · simp only [pcmToWav, wavHeaderBytes_eq, u32le, u16le, readU32, byteAt,
      List.cons_append, List.nil_append, List.append_assoc]
    simp only [List.getD_cons_succ, List.getD_cons_zero]
    omega
  · intro i hi
    have hb := flatMap_i16le_byteAt pcm i hi
    have hmem : pcm.getD i 0 ∈ pcm := by
      rw [List.getD_eq_getElem _ _ hi]
      exact List.getElem_mem hi
    obtain ⟨hlo, hhi⟩ := hrange _ hmem
    have h1 : byteAt (pcmToWav pcm r) (44 + 2 * i) =
        byteAt (pcm.flatMap i16le) (2 * i) := by
      have h := byteAt_append_right (wavHeaderBytes pcm.length r)
        (pcm.flatMap i16le) (2 * i)
      rw [wavHeaderBytes_length] at h
      simpa [pcmToWav] using h
    have h2 : byteAt (pcmToWav pcm r) (44 + 2 * i + 1) =
        byteAt (pcm.flatMap i16le) (2 * i + 1) := by
      have h := byteAt_append_right (wavHeaderBytes pcm.length r)
        (pcm.flatMap i16le) (2 * i + 1)
      rw [wavHeaderBytes_length] at h
      have harith : 44 + (2 * i + 1) = 44 + 2 * i + 1 := by omega
      rw [harith] at h
      simpa [pcmToWav] using h
    have he : ((((pcm.getD i 0).emod 65536).toNat : ℤ)) = (pcm.getD i 0).emod 65536 :=
      Int.toNat_of_nonneg (Int.emod_nonneg _ (by norm_num))
    have hemod_nonneg : (0 : ℤ) ≤ (pcm.getD i 0).emod 65536 :=
      Int.emod_nonneg _ (by norm_num)
    have hemod_lt : (pcm.getD i 0).emod 65536 < 65536 :=
      Int.emod_lt_of_pos _ (by norm_num)
    have he : (((pcm.getD i 0).emod 65536).toNat : ℤ) =
        (pcm.getD i 0).emod 65536 := Int.toNat_of_nonneg hemod_nonneg
    have hlt : ((pcm.getD i 0).emod 65536).toNat < 65536 := by omega
    have hu16 : readU16 (pcmToWav pcm r) (44 + 2 * i) =
        ((pcm.getD i 0).emod 65536).toNat := by
      rw [readU16, h1, h2, hb.1, hb.2]
      omega
    obtain ⟨v, hv⟩ : ∃ v, ((pcm.getD i 0).emod 65536).toNat = v := ⟨_, rfl⟩
    rw [hv] at he hlt hu16
    have hmod : ((v : ℤ)) = pcm.getD i 0 % 65536 := he
    simp only [readI16]
    rw [hu16]
    split <;> omega

/-- C9 (witness): the header of three concrete samples at 24000 Hz:
`ChunkSize = 36 + 2 * 3`. -/
theorem pcmToWav_spec_witness :
    (∀ s ∈ ([0, -1, 12345] : List ℤ), -32768 ≤ s ∧ s < 32768) ∧
    readU32 (pcmToWav [0, -1, 12345] 24000) 4 =
      36 + 2 * ([0, -1, 12345] : List ℤ).length :=
  ⟨by decide,
   (pcmToWav_spec [0, -1, 12345] 24000 (by decide) (by decide)
      (by decide)).2.2.2.2.2.1⟩

/-- C10: concatenating the empty buffer list yields a 1-channel, 1-sample,
24000 Hz buffer — its length 1 is not the sum 0 of the input lengths — and
for every non-empty list the result's channel count and sample rate are
those of the first buffer alone, with no condition on the remaining
buffers. -/
theorem concatenateAudioBuffers_spec :
    (concatenateAudioBuffers []).numberOfChannels = 1 ∧
    (concatenateAudioBuffers []).length = 1 ∧
    (concatenateAudioBuffers []).sampleRate = 24000 ∧
    (([] : List Audio).map (·.length)).sum = 0 ∧
    (∀ (b : Audio) (bs : List Audio),
      (concatenateAudioBuffers (b :: bs)).numberOfChannels = b.numberOfChannels ∧
      (concatenateAudioBuffers (b :: bs)).sampleRate = b.sampleRate) := by
  exact ⟨rfl, rfl, rfl, rfl, fun b bs => ⟨rfl, rfl⟩⟩
